import Mathlib

/-!
Shallow embedding of the hydra-control-plane node controller
(src/model/node.rs and src/main.rs) used to check the natural-language
specification against the code.

Conventions:
* Rust `u64`/`u32` counters are modelled as `Nat`; `u32::from_str`'s range
  check is modelled explicitly (`parseU32Chars`).  The cumulative game
  counters are event counts and byte totals far below `2^64`, and Rust's
  checked arithmetic treats overflow as a program error, so `u64` overflow
  is not modelled.
* Rust `Vec<u8>` byte strings (transaction ids, key hashes, CBOR payloads)
  are modelled as `List Nat`.
* `std::collections::HashMap` is modelled as an association list with
  first-match lookup; `insert`/`remove`/`extend` keep the HashMap
  semantics (at most one entry per key is ever produced by `mapInsert`).
* External library calls (pallas CBOR decoding, bech32 address rendering)
  and repository files not present under `src/` are modelled as carried
  decode results or oracle parameters; each such place is documented at
  its definition.
-/

-- Decidable equality for `Except`, used to evaluate the model on concrete inputs.
deriving instance DecidableEq for Except

/-! ## Association-list model of `std::collections::HashMap` -/

/-- Lookup of the first entry with the given key (a HashMap holds at most
one entry per key, so first-match lookup is the HashMap lookup). -/
def mapLookup {α β : Type} [DecidableEq α] : List (α × β) → α → Option β
  | [], _ => none
  | (k0, v) :: rest, k => if k0 = k then some v else mapLookup rest k

/-- Removal of every entry with the given key; models `HashMap::remove`
(which removes the unique entry with that key). -/
def mapErase {α β : Type} [DecidableEq α] : List (α × β) → α → List (α × β)
  | [], _ => []
  | (k0, v) :: rest, k =>
    if k0 = k then mapErase rest k else (k0, v) :: mapErase rest k

/-- Models `HashMap::insert`: afterwards the key maps to the new value and
occurs exactly once. -/
def mapInsert {α β : Type} [DecidableEq α] (m : List (α × β)) (k : α) (v : β) :
    List (α × β) :=
  (k, v) :: mapErase m k

/-- Models `HashMap::extend`: every entry of `other` is inserted into `m`,
so on a key collision the entry of `other` wins. -/
def mapExtend {α β : Type} [DecidableEq α] (m other : List (α × β)) :
    List (α × β) :=
  other.foldl (fun acc kv => mapInsert acc kv.1 kv.2) m

theorem mapLookup_mapErase_self {α β : Type} [DecidableEq α]
    (m : List (α × β)) (k : α) : mapLookup (mapErase m k) k = none := by
  induction m with
  | nil => rfl
  | cons kv rest ih =>
    obtain ⟨k0, v⟩ := kv
    rw [mapErase]
    by_cases h : k0 = k
    · rw [if_pos h, ih]
    · rw [if_neg h, mapLookup, if_neg h, ih]

theorem mapLookup_mapErase_ne {α β : Type} [DecidableEq α]
    (m : List (α × β)) (k k' : α) (h : k' ≠ k) :
    mapLookup (mapErase m k) k' = mapLookup m k' := by
  induction m with
  | nil => rfl
  | cons kv rest ih =>
    obtain ⟨k0, v⟩ := kv
    rw [mapErase]
    by_cases h0 : k0 = k
    · subst h0
      rw [if_pos rfl, ih, mapLookup,
        if_neg (show ¬k0 = k' from fun hk => h hk.symm)]
    · rw [if_neg h0, mapLookup, mapLookup, ih]

theorem mapLookup_mapInsert_self {α β : Type} [DecidableEq α]
    (m : List (α × β)) (k : α) (v : β) :
    mapLookup (mapInsert m k v) k = some v := by
  rw [mapInsert, mapLookup, if_pos rfl]

theorem mapLookup_mapInsert_ne {α β : Type} [DecidableEq α]
    (m : List (α × β)) (k k' : α) (v : β) (h : k' ≠ k) :
    mapLookup (mapInsert m k v) k' = mapLookup m k' := by
  rw [mapInsert, mapLookup, if_neg (show ¬k = k' from fun hk => h hk.symm),
    mapLookup_mapErase_ne m k k' h]

/-! ## Address parsing (`impl TryFrom<String> for ConnectionInfo`) -/

/-- The split of a character list at every occurrence of the character `c`;
models Rust `str::split(c)` (which yields `n + 1` pieces for `n`
separators, empty pieces included). -/
def splitOnChar (c : Char) : List Char → List (List Char)
  | [] => [[]]
  | x :: xs =>
    let rest := splitOnChar c xs
    if x = c then [] :: rest
    else
      match rest with
      | [] => [[x]]
      | r :: rs => (x :: r) :: rs

/-- The split of a character list at every non-overlapping occurrence,
scanned left to right, of the two-character pattern `a b`; models Rust
`str::split("//")` (the only string pattern the source uses). -/
def splitOnPair (a b : Char) : List Char → List (List Char)
  | [] => [[]]
  | [x] => [[x]]
  | x :: y :: rest =>
    if x = a ∧ y = b then [] :: splitOnPair a b rest
    else
      match splitOnPair a b (y :: rest) with
      | [] => [[x]]
      | r :: rs => (x :: r) :: rs

/-- Models Rust `str::parse::<u32>()`: an optional leading `+`, then one or
more ASCII digits, value at most `u32::MAX`; anything else fails. -/
def parseU32Chars (cs : List Char) : Option Nat :=
  let digits := match cs with
    | '+' :: rest => rest
    | _ => cs
  if digits = [] then none
  else if digits.all Char.isDigit then
    let n := digits.foldl (fun acc c => acc * 10 + (c.toNat - 48)) 0
    if n < 4294967296 then some n else none
  else none

/-- Connection data of one node, from src/model/node.rs: `ConnectionInfo
{ host, port, secure }` (`port` is a Rust `u32`). -/
structure ConnectionInfo where
  host : String
  port : Nat
  secure : Bool
deriving DecidableEq, Repr

/-- Models `impl TryFrom<String> for ConnectionInfo` (src/model/node.rs):
split the input on `:`; 2 parts give host and port with `secure = true`;
3 parts give scheme, host (`parts[1].split("//").last()`) and port with
`secure = (scheme == "https" || scheme == "wss")`; any other number of
parts is `"Invalid uri"`.  A port that `u32::from_str` rejects propagates
the parse error (modelled as `"invalid port"`). -/
def ConnectionInfo.try_from (value : String) : Except String ConnectionInfo :=
  let parts := splitOnChar ':' value.data
  match parts with
  | [host, port] =>
    match parseU32Chars port with
    | some p => Except.ok { host := String.mk host, port := p, secure := true }
    | none => Except.error "invalid port"
  | [schema, hostRaw, port] =>
    match parseU32Chars port with
    | some p =>
      match (splitOnPair '/' '/' hostRaw).getLast? with
      | some host =>
        Except.ok { host := String.mk host, port := p,
                    secure := schema = "https".data ∨ schema = "wss".data }
      | none => Except.error "Invalid host"
    | none => Except.error "invalid port"
  | _ => Except.error "Invalid uri"

/-- Models `ConnectionInfo::to_authority`: `format!("{}:{}", host, port)`. -/
def ConnectionInfo.to_authority (ci : ConnectionInfo) : String :=
  ci.host ++ ":" ++ toString ci.port

/-- Models `ConnectionInfo::to_websocket_url`. -/
def ConnectionInfo.to_websocket_url (ci : ConnectionInfo) : String :=
  (if ci.secure then "wss" else "ws") ++ "://" ++ ci.host ++ ":" ++ toString ci.port

/-- Models `ConnectionInfo::to_http_url`. -/
def ConnectionInfo.to_http_url (ci : ConnectionInfo) : String :=
  (if ci.secure then "https" else "http") ++ "://" ++ ci.host ++ ":" ++ toString ci.port

/-- The host rule as the specification words it for the 3-token case:
"token 2 with leading `//` stripped".  Stated only to compare with the
source's `parts[1].split("//").last()`. -/
def specHostLeadingStripped (t : List Char) : List Char :=
  match t with
  | '/' :: '/' :: rest => rest
  | other => other

/-! ## Stats ledger (`NodeStats`, src/model/node.rs) -/

/-- One pending state delta, from src/model/node.rs: `StateUpdate`. -/
structure StateUpdate where
  bytes : Nat
  kills : Nat
  items : Nat
  secrets : Nat
  play_time : Nat
deriving DecidableEq, Repr

/-- Per-node cumulative counters plus the pending-transaction ledger, from
src/model/node.rs: `NodeStats`.  `pending_transactions` is a
`HashMap<Vec<u8>, StateUpdate>`, modelled as an association list. -/
structure NodeStats where
  persisted : Bool
  transactions : Nat
  bytes : Nat
  kills : Nat
  items : Nat
  secrets : Nat
  play_time : Nat
  pending_transactions : List (List Nat × StateUpdate)
deriving DecidableEq, Repr

/-- Models `NodeStats::new`. -/
def NodeStats.new (persisted : Bool) : NodeStats :=
  { persisted := persisted, transactions := 0, bytes := 0, kills := 0,
    items := 0, secrets := 0, play_time := 0, pending_transactions := [] }

/-- Models `NodeStats::update_stats`: fold one confirmed state delta into
the cumulative counters. -/
def NodeStats.update_stats (s : NodeStats) (state_change : StateUpdate) : NodeStats :=
  { s with
    transactions := s.transactions + 1,
    bytes := s.bytes + state_change.bytes,
    kills := s.kills + state_change.kills,
    items := s.items + state_change.items,
    secrets := s.secrets + state_change.secrets,
    play_time := s.play_time + state_change.play_time }

/-- Models `NodeStats::calculate_stats`: for each confirmed transaction id,
`HashMap::remove` the pending entry; when one was present fold it into the
counters via `update_stats`, otherwise only log (a no-op on the state). -/
def NodeStats.calculate_stats (s : NodeStats) (confirmed_txs : List (List Nat)) :
    NodeStats :=
  confirmed_txs.foldl
    (fun acc tx_id =>
      match mapLookup acc.pending_transactions tx_id with
      | some state_change =>
        NodeStats.update_stats
          { acc with pending_transactions := mapErase acc.pending_transactions tx_id }
          state_change
      | none => acc)
    s

/-- Models `NodeStats::join`: counters summed, `persisted` ANDed, pending
maps unioned by `HashMap::extend` (the right-hand operand wins a key
collision). -/
def NodeStats.join (s other : NodeStats) : NodeStats :=
  { persisted := s.persisted && other.persisted,
    transactions := s.transactions + other.transactions,
    bytes := s.bytes + other.bytes,
    kills := s.kills + other.kills,
    items := s.items + other.items,
    secrets := s.secrets + other.secrets,
    play_time := s.play_time + other.play_time,
    pending_transactions := mapExtend s.pending_transactions other.pending_transactions }

/-! ## Game state, players and transaction validation -/

/-- Modelled from the spec: `GameState` (src/model/game_state.rs is not
under src/) — "admin identity + game counters"; the gameplay counters are
the four whose deltas a `StateUpdate` carries. -/
structure GameState where
  admin : List Nat
  kills : Nat
  items : Nat
  secrets : Nat
  play_time : Nat
deriving DecidableEq, Repr

/-- Modelled from the spec: `Player` (src/model/player.rs is not under
src/) — "identity (admin key hash) plus roster membership", holding the
"previously known baseline" game state used to compute deltas. -/
structure Player where
  pkh : List Nat
  game_state : Option GameState
deriving DecidableEq, Repr

/-- Modelled from the spec: `Player::generate_state_update`
(src/model/player.rs is not under src/) — "StateUpdate: byte size of the
transaction plus four gameplay deltas, computed from the difference
between a freshly decoded on-chain game-state record and the player's
previously known baseline".  The baseline advances to the decoded record
(the call site in src/model/node.rs takes the player through `iter_mut`,
i.e. `&mut Player`), so that the next transaction's delta is measured from
this one; the updated player is returned explicitly.  A missing baseline
counts from zero. -/
def Player.generate_state_update (p : Player) (bytes : Nat) (game_state : GameState) :
    StateUpdate × Player :=
  let base := match p.game_state with
    | some old => old
    | none => { admin := p.pkh, kills := 0, items := 0, secrets := 0, play_time := 0 }
  ({ bytes := bytes,
     kills := game_state.kills - base.kills,
     items := game_state.items - base.items,
     secrets := game_state.secrets - base.secrets,
     play_time := game_state.play_time - base.play_time },
   { p with game_state := some game_state })

/-- Decode outcome of the inline datum, carried on the transaction model:
first `minicbor::decode::<PlutusData>` on the raw datum bytes (pallas,
external library), then `GameState::try_from` (src/model/game_state.rs is
not under src/; its error value propagates through `?` and is modelled as
the fixed message `"DatumDecodeError"`, the spec's name for this
failure). -/
inductive InlineDatum where
  | failedDecode
  | invalidGameState
  | ok (game_state : GameState)
deriving DecidableEq, Repr

/-- Models pallas `PseudoDatumOption`: a datum hash reference or inline
data. -/
inductive DatumOption where
  | hash (h : List Nat)
  | data (d : InlineDatum)
deriving DecidableEq, Repr

/-- Models one `PseudoTransactionOutput`: `postAlonzo` carries the output
address already rendered through `Address::from_bytes` and `to_bech32`
(pallas, external; `none` models a `from_bytes` failure, on which the
filter in `add_transaction` answers `false`), and the optional datum;
`legacy` is any non-PostAlonzo output shape. -/
inductive TransactionOutput where
  | postAlonzo (address : Option String) (datum_option : Option DatumOption)
  | legacy
deriving DecidableEq, Repr

/-- Models the transaction body visible after pallas decoding:
`transaction_body.outputs`. -/
structure BabbageTx where
  outputs : List TransactionOutput
deriving DecidableEq, Repr

/-- Models the `TxValid` message (src/model/hydra/messages/tx_valid.rs is
not under src/; src/model/node.rs reads its `cbor` and `tx_id` fields).
`multi_era_ok` and `as_babbage` carry the outcomes of the external pallas
calls `MultiEraTx::decode(cbor)` and `tx.as_babbage()` on this payload. -/
structure TxValid where
  tx_id : List Nat
  cbor : List Nat
  multi_era_ok : Bool
  as_babbage : Option BabbageTx
deriving DecidableEq, Repr

/-- The application's fixed script address, from src/main.rs:
`SCRIPT_ADDRESS`. -/
def SCRIPT_ADDRESS : String :=
  "addr_test1wp3z9emuaqukk57zsrcnhx0fv2pp9n73cyq7s32mutwklfqjp53s0"

/-- The output filter closure of `Node::add_transaction`: keep a PostAlonzo
output whose bech32-rendered address equals `SCRIPT_ADDRESS`; an address
that fails to re-parse, and any non-PostAlonzo output, is dropped. -/
def isScriptOutput (output : TransactionOutput) : Bool :=
  match output with
  | TransactionOutput.postAlonzo address _ =>
    match address with
    | some a => a = SCRIPT_ADDRESS
    | none => false
  | TransactionOutput.legacy => false

/-- Walk of `self.players.iter_mut().find(|p| p.pkh == game_state.admin)`
followed by `player.generate_state_update(..)`: update the first player
whose key hash equals the datum's admin, return the produced `StateUpdate`
together with the roster holding the updated player in place; `none` when
no player matches ("No player found"). -/
def findPlayerUpdate (admin : List Nat) (bytes : Nat) (game_state : GameState) :
    List Player → Option (StateUpdate × List Player)
  | [] => none
  | p :: rest =>
    if p.pkh = admin then
      let r := Player.generate_state_update p bytes game_state
      some (r.1, r.2 :: rest)
    else
      match findPlayerUpdate admin bytes game_state rest with
      | some (su, rest2) => some (su, p :: rest2)
      | none => none

/-- The transaction-building context, from src/model/tx_builder.rs (not
under src/); `Node::add_transaction` and the dispatcher never touch it, so
only its presence as a Node field matters here.  `admin_key` holds the key
bytes passed at construction, `script_ref` the optional reference script
found at startup. -/
structure TxBuilder where
  admin_key : List Nat
  script_ref : Option (List Nat)
deriving DecidableEq, Repr

/-- One head's controller state, from src/model/node.rs: `Node`.  The
`socket` field is the transport handle (`HydraSocket`, out of the modelled
state; kept as an opaque identifier so that frame conditions can state it
is untouched). -/
structure Node where
  connection_info : ConnectionInfo
  head_id : Option String
  socket : Nat
  players : List Player
  stats : NodeStats
  tx_builder : TxBuilder
deriving DecidableEq, Repr

/-- Models `Node::add_transaction` (src/model/node.rs): decode the payload
(pallas `MultiEraTx::decode`, then `as_babbage`), filter the outputs to
those addressed to `SCRIPT_ADDRESS`, require exactly one, require an
inline datum on it, decode the datum into a `GameState`, find the tracked
player with the admin's key hash, generate the state delta and insert it
into the pending ledger keyed by the transaction id.  Every failure is an
`Err` with the source's message; the `"Invalid output type"` arm mirrors
the source's unreachable non-PostAlonzo match arm (the filter only keeps
PostAlonzo outputs), and the `head?`-is-`none` arm mirrors the source's
`first().unwrap()` after the length check. -/
def Node.add_transaction (node : Node) (transaction : TxValid) :
    Except String Node :=
  if transaction.multi_era_ok = false then
    Except.error "Failed to decode transaction"
  else
    match transaction.as_babbage with
    | none => Except.error "Invalid babbage era tx"
    | some tx =>
      let script_outputs := tx.outputs.filter isScriptOutput
      if script_outputs.length ≠ 1 then
        Except.error "Invalid number of script outputs"
      else
        match script_outputs.head? with
        | none => Except.error "Invalid number of script outputs"
        | some TransactionOutput.legacy => Except.error "Invalid output type"
        | some (TransactionOutput.postAlonzo _ datum_option) =>
          match datum_option with
          | none => Except.error "No datum found"
          | some (DatumOption.hash _) => Except.error "No inline datum found"
          | some (DatumOption.data InlineDatum.failedDecode) =>
            Except.error "Failed to deserialize datum"
          | some (DatumOption.data InlineDatum.invalidGameState) =>
            Except.error "DatumDecodeError"
          | some (DatumOption.data (InlineDatum.ok game_state)) =>
            match findPlayerUpdate game_state.admin transaction.cbor.length
                game_state node.players with
            | none => Except.error "No player found"
            | some (state_update, players2) =>
              Except.ok
                { node with
                  players := players2,
                  stats :=
                    { node.stats with
                      pending_transactions :=
                        mapInsert node.stats.pending_transactions
                          transaction.tx_id state_update } }

/-- One UTxO as returned by the snapshot endpoint (src/model/hydra/utxo.rs
is not under src/; `add_player` only passes the list through). -/
structure UTxO where
  raw : List Nat
deriving DecidableEq, Repr

/-- Models `Node::add_player` (src/model/node.rs).  The three fallible
collaborators are passed as oracle outcomes: `fetch_utxos` (the HTTP
snapshot fetch, mapped by the source to the message `"Failed to fetch
utxos"`), `build_new_game_state` (src/model/tx_builder.rs, not under src/)
and `new_tx_message` (`NewTx::new` then `into()`, not under src/).  The
source mutates `&mut self`; the model returns the node alongside the
result, so an error leaves the returned node exactly the input.  On
success the produced message is handed to the fire-and-forget `send` and
the player is pushed onto the roster — before any on-chain
confirmation. -/
def Node.add_player (node : Node) (player : Player)
    (fetch_utxos : Except String (List UTxO))
    (build_new_game_state : Player → List UTxO → Except String (List Nat))
    (new_tx_message : List Nat → Except String String) :
    Node × Except String String :=
  match fetch_utxos with
  | Except.error _ => (node, Except.error "Failed to fetch utxos")
  | Except.ok utxos =>
    match build_new_game_state player utxos with
    | Except.error e => (node, Except.error e)
    | Except.ok new_game_tx =>
      match new_tx_message new_game_tx with
      | Except.error e => (node, Except.error e)
      | Except.ok message =>
        ({ node with players := node.players ++ [player] }, Except.ok message)

/-! ## Dispatcher (`update`, src/main.rs) -/

/-- The closed event-variant set consumed by the dispatcher
(src/model/hydra/hydra_message.rs is not under src/; src/main.rs matches
the three meaningful variants and ignores the rest, modelled by
`other`). -/
inductive HydraEventMessage where
  | headIsOpen (head_id : String)
  | snapshotConfirmed (confirmed_transactions : List (List Nat))
  | txValid (tx : TxValid)
  | other
deriving DecidableEq, Repr

/-- The channel payload, from src/model/hydra/hydra_message.rs (not under
src/): an inbound event tagged with the authority of the node it came
from, or an outbound send request. -/
inductive HydraData where
  | received (message : HydraEventMessage) (authority : String)
  | send (payload : String)
deriving DecidableEq, Repr

/-- Effect of one matched message on its node, from the inner `match` of
`update` (src/main.rs): `HeadIsOpen` assigns `head_id` only when it is
still unset (the match-arm guard `node.head_id.is_none()`; otherwise the
event falls to the catch-all no-op arm); `SnapshotConfirmed` folds the
confirmed ids through `calculate_stats`; `TxValid` runs `add_transaction`,
logging and dropping any error; every other message is a no-op. -/
def applyMessage (node : Node) (message : HydraEventMessage) : Node :=
  match message with
  | HydraEventMessage.headIsOpen hid =>
    if node.head_id.isNone then { node with head_id := some hid } else node
  | HydraEventMessage.snapshotConfirmed txs =>
    { node with stats := NodeStats.calculate_stats node.stats txs }
  | HydraEventMessage.txValid tx =>
    match Node.add_transaction node tx with
    | Except.ok node2 => node2
    | Except.error _ => node
  | HydraEventMessage.other => node

/-- Routing of one `Received` event, from `update` (src/main.rs): linear
scan for the first node whose authority key equals the event's authority
(`iter_mut().find(..)`), mutate it in place; no match is logged and
mutates nothing. -/
def processReceived (nodes : List Node) (message : HydraEventMessage)
    (authority : String) : List Node :=
  match nodes with
  | [] => []
  | n :: rest =>
    if ConnectionInfo.to_authority n.connection_info = authority then
      applyMessage n message :: rest
    else
      n :: processReceived rest message authority

/-- The dispatcher loop `update` (src/main.rs) over a finite event trace:
each `Received` event is routed; `Send` events are ignored by the loop;
the loop ends only when the channel closes (the end of the trace). -/
def update (nodes : List Node) (events : List HydraData) : List Node :=
  events.foldl
    (fun ns e =>
      match e with
      | HydraData.received message authority => processReceived ns message authority
      | HydraData.send _ => ns)
    nodes

/-! ## Auxiliary lemmas -/

/-- Right-biased choice on options: the first operand when present,
otherwise the second; used to state the key-collision bias of
`HashMap::extend`. -/
def optionOr {α : Type} (o1 o2 : Option α) : Option α :=
  match o1 with
  | some v => some v
  | none => o2

theorem mapLookup_eq_none_of_not_mem {α β : Type} [DecidableEq α]
    (m : List (α × β)) (k : α) (h : k ∉ m.map Prod.fst) :
    mapLookup m k = none := by
  induction m with
  | nil => rfl
  | cons kv rest ih =>
    obtain ⟨k0, v⟩ := kv
    rw [mapLookup,
      if_neg (show ¬k0 = k from fun hk => h (by simp [hk])),
      ih (fun hm => h (by simp; right; exact (by simpa using hm)))]

theorem mapLookup_mapExtend {α β : Type} [DecidableEq α]
    (a b : List (α × β)) (k : α) (hb : (b.map Prod.fst).Nodup) :
    mapLookup (mapExtend a b) k =
      optionOr (mapLookup b k) (mapLookup a k) := by
  induction b generalizing a with
  | nil => rfl
  | cons kv rest ih =>
    obtain ⟨k0, v0⟩ := kv
    have hk0 : k0 ∉ rest.map Prod.fst := by
      have := hb
      simp only [List.map_cons, List.nodup_cons] at this
      exact this.1
    have hrest : (rest.map Prod.fst).Nodup := by
      have := hb
      simp only [List.map_cons, List.nodup_cons] at this
      exact this.2
    have hstep : mapExtend a ((k0, v0) :: rest) = mapExtend (mapInsert a k0 v0) rest := rfl
    rw [hstep, ih (mapInsert a k0 v0) hrest]
    by_cases hk : k0 = k
    · subst hk
      rw [mapLookup_eq_none_of_not_mem rest k0 hk0, mapLookup, if_pos rfl,
        mapLookup_mapInsert_self]
      rfl
    · rw [mapLookup, if_neg hk,
        mapLookup_mapInsert_ne a k0 k v0 (fun hh => hk hh.symm)]

/-! ## C1 — confirming an unknown transaction id -/

/-- C1: for every stats ledger and every transaction id with no pending
entry, `calculate_stats` with that id changes nothing (pending map and all
six cumulative counters) and raises no error (the model is a total
function), and applying it twice with the same id changes the counters
only on the first application that actually found a pending match: the
second application is always the identity on the first's result. -/
theorem confirm_unknown_id_is_noop (s : NodeStats) (tx_id : List Nat) :
    (mapLookup s.pending_transactions tx_id = none →
      NodeStats.calculate_stats s [tx_id] = s) ∧
    NodeStats.calculate_stats (NodeStats.calculate_stats s [tx_id]) [tx_id] =
      NodeStats.calculate_stats s [tx_id] := by
  constructor
  · intro h
    simp [NodeStats.calculate_stats, h]
  · cases hl : mapLookup s.pending_transactions tx_id with
    | none => simp [NodeStats.calculate_stats, hl]
    | some state_change =>
      simp [NodeStats.calculate_stats, hl, NodeStats.update_stats,
        mapLookup_mapErase_self]

/-- C1 witness: the spec's scenario — confirming `0xdeadbeef` on a ledger
that never saw it leaves the ledger unchanged, twice over. -/
theorem confirm_unknown_id_is_noop_witness :
    NodeStats.calculate_stats (NodeStats.new true) [[222, 173, 190, 239]] =
      NodeStats.new true ∧
    NodeStats.calculate_stats
        (NodeStats.calculate_stats (NodeStats.new true) [[222, 173, 190, 239]])
        [[222, 173, 190, 239]] =
      NodeStats.calculate_stats (NodeStats.new true) [[222, 173, 190, 239]] :=
  ⟨(confirm_unknown_id_is_noop (NodeStats.new true) [222, 173, 190, 239]).1 (by decide),
   (confirm_unknown_id_is_noop (NodeStats.new true) [222, 173, 190, 239]).2⟩

/-! ## C8 — `join` is componentwise -/

/-- C8: `join` sums each of the six cumulative counters, ANDs `persisted`,
and unions the pending maps with the right-hand operand winning a key
collision; the key-uniqueness hypothesis is the `HashMap` representation
invariant (a HashMap holds each key at most once). -/
theorem join_is_componentwise (a b : NodeStats)
    (hb : (b.pending_transactions.map Prod.fst).Nodup) :
    (NodeStats.join a b).transactions = a.transactions + b.transactions ∧
    (NodeStats.join a b).bytes = a.bytes + b.bytes ∧
    (NodeStats.join a b).kills = a.kills + b.kills ∧
    (NodeStats.join a b).items = a.items + b.items ∧
    (NodeStats.join a b).secrets = a.secrets + b.secrets ∧
    (NodeStats.join a b).play_time = a.play_time + b.play_time ∧
    (NodeStats.join a b).persisted = (a.persisted && b.persisted) ∧
    ∀ k, mapLookup (NodeStats.join a b).pending_transactions k =
      optionOr (mapLookup b.pending_transactions k)
        (mapLookup a.pending_transactions k) := by
  refine ⟨rfl, rfl, rfl, rfl, rfl, rfl, rfl, fun k => ?_⟩
  exact mapLookup_mapExtend a.pending_transactions b.pending_transactions k hb

/-- Ledger pair for the C8 witness: the two pending maps collide on the
key `[1]`. -/
def c8A : NodeStats :=
  { persisted := true, transactions := 2, bytes := 10, kills := 1, items := 2,
    secrets := 3, play_time := 4,
    pending_transactions :=
      [([1], { bytes := 5, kills := 0, items := 0, secrets := 0, play_time := 1 })] }

/-- Right-hand ledger for the C8 witness. -/
def c8B : NodeStats :=
  { persisted := false, transactions := 3, bytes := 20, kills := 5, items := 6,
    secrets := 7, play_time := 8,
    pending_transactions :=
      [([1], { bytes := 9, kills := 1, items := 1, secrets := 1, play_time := 2 })] }

/-- C8 witness: concrete ledgers with a colliding pending key — counters
sum, `persisted` ANDs to false, and the right-hand entry wins the key. -/
theorem join_is_componentwise_witness :
    (NodeStats.join c8A c8B).transactions = c8A.transactions + c8B.transactions ∧
    (NodeStats.join c8A c8B).persisted = (c8A.persisted && c8B.persisted) ∧
    mapLookup (NodeStats.join c8A c8B).pending_transactions [1] =
      some { bytes := 9, kills := 1, items := 1, secrets := 1, play_time := 2 } := by
  have h := join_is_componentwise c8A c8B (by decide)
  refine ⟨h.1, h.2.2.2.2.2.2.1, ?_⟩
  rw [h.2.2.2.2.2.2.2 [1]]
  decide

/-! ## C3 — `head_id` is first-writer-wins -/

theorem head_id_stable_of_set (n : Node) (h : String) (hn : n.head_id = some h)
    (hids : List String) :
    (hids.foldl (fun m x => applyMessage m (HydraEventMessage.headIsOpen x)) n).head_id =
      some h := by
  induction hids generalizing n with
  | nil => exact hn
  | cons x xs ih =>
    rw [List.foldl_cons]
    exact ih _ (by simp [applyMessage, hn])

/-- C3: a node whose `head_id` is already set keeps it unchanged under any
later `HeadIsOpen` event, and for a node without a head identity, any
nonempty sequence of `HeadIsOpen` events leaves `head_id` equal to the
first event's head id — it is never overwritten. -/
theorem head_id_first_writer_wins (n : Node) :
    (∀ (h hid : String), n.head_id = some h →
      (applyMessage n (HydraEventMessage.headIsOpen hid)).head_id = some h) ∧
    (∀ (hid : String) (hids : List String), n.head_id = none →
      ((hids.foldl (fun m x => applyMessage m (HydraEventMessage.headIsOpen x))
          (applyMessage n (HydraEventMessage.headIsOpen hid))).head_id = some hid)) := by
  constructor
  · intro h hid hn
    simp [applyMessage, hn]
  · intro hid hids hn
    exact head_id_stable_of_set _ hid (by simp [applyMessage, hn]) hids

/-- Node with an already-assigned head identity, for the C3 witness. -/
def c3NodeSet : Node :=
  { connection_info := { host := "n1", port := 4001, secure := true },
    head_id := some "abc", socket := 0, players := [],
    stats := NodeStats.new true,
    tx_builder := { admin_key := [], script_ref := none } }

/-- Node without a head identity yet, for the C3 witness. -/
def c3NodeUnset : Node :=
  { c3NodeSet with head_id := none }

/-- C3 witness: a later `HeadIsOpen "xyz"` does not overwrite `"abc"`, and
from an unset node the sequence `["abc", "def", "ghi"]` of head ids ends
with the first one assigned. -/
theorem head_id_first_writer_wins_witness :
    (applyMessage c3NodeSet (HydraEventMessage.headIsOpen "xyz")).head_id = some "abc" ∧
    ((["def", "ghi"].foldl (fun m x => applyMessage m (HydraEventMessage.headIsOpen x))
        (applyMessage c3NodeUnset (HydraEventMessage.headIsOpen "abc"))).head_id =
      some "abc") :=
  ⟨(head_id_first_writer_wins c3NodeSet).1 "abc" "xyz" rfl,
   (head_id_first_writer_wins c3NodeUnset).2 "abc" ["def", "ghi"] rfl⟩

/-! ## C9 — events for an unknown authority mutate nothing -/

/-- C9: when no registered node's authority key equals the event's
authority, routing the event leaves every node unchanged, and the
dispatcher loop goes on to process the remaining events exactly as it
would have without the unmatched event. -/
theorem unknown_authority_is_noop (nodes : List Node) (message : HydraEventMessage)
    (authority : String) (rest : List HydraData)
    (h : ∀ n ∈ nodes, ConnectionInfo.to_authority n.connection_info ≠ authority) :
    processReceived nodes message authority = nodes ∧
    update nodes (HydraData.received message authority :: rest) =
      update nodes rest := by
  have h1 : ∀ ns : List Node,
      (∀ n ∈ ns, ConnectionInfo.to_authority n.connection_info ≠ authority) →
      processReceived ns message authority = ns := by
    intro ns
    induction ns with
    | nil => intro _; rfl
    | cons n tl ih =>
      intro hh
      rw [processReceived, if_neg (hh n (List.mem_cons_self n tl)),
        ih (fun m hm => hh m (List.mem_cons_of_mem n hm))]
  refine ⟨h1 nodes h, ?_⟩
  show update (processReceived nodes message authority) rest = update nodes rest
  rw [h1 nodes h]

/-- Registered node `n1:4001`, for the C9 witness (the spec's scenario). -/
def c9Node : Node :=
  { connection_info := { host := "n1", port := 4001, secure := true },
    head_id := none, socket := 0, players := [],
    stats := NodeStats.new true,
    tx_builder := { admin_key := [], script_ref := none } }

/-- C9 witness: `HeadIsOpen "abc"` arriving for authority `"n2:4001"` when
only `"n1:4001"` is registered mutates no node, and a subsequent event in
the trace is processed as if the unmatched one had never arrived. -/
theorem unknown_authority_is_noop_witness :
    processReceived [c9Node] (HydraEventMessage.headIsOpen "abc") "n2:4001" = [c9Node] ∧
    update [c9Node]
        [HydraData.received (HydraEventMessage.headIsOpen "abc") "n2:4001",
         HydraData.received (HydraEventMessage.headIsOpen "zzz") "n1:4001"] =
      update [c9Node]
        [HydraData.received (HydraEventMessage.headIsOpen "zzz") "n1:4001"] :=
  unknown_authority_is_noop [c9Node] (HydraEventMessage.headIsOpen "abc") "n2:4001"
    [HydraData.received (HydraEventMessage.headIsOpen "zzz") "n1:4001"]
    (by decide)

/-! ## C10 — an unparsable port is a parse error -/

/-- C10: with exactly 2 or exactly 3 colon-separated tokens, a port token
that `u32::from_str` rejects makes parsing return an error, never an
address. -/
theorem bad_port_is_parse_error (s : String) :
    (∀ h p, splitOnChar ':' s.data = [h, p] → parseU32Chars p = none →
      ∃ e, ConnectionInfo.try_from s = Except.error e) ∧
    (∀ sch h p, splitOnChar ':' s.data = [sch, h, p] → parseU32Chars p = none →
      ∃ e, ConnectionInfo.try_from s = Except.error e) := by
  constructor
  · intro h p hsplit hport
    refine ⟨"invalid port", ?_⟩
    simp only [ConnectionInfo.try_from, hsplit, hport]
  · intro sch h p hsplit hport
    refine ⟨"invalid port", ?_⟩
    simp only [ConnectionInfo.try_from, hsplit, hport]

/-- C10 witness: a non-numeric port in the 2-token form and an
out-of-`u32`-range port in the 3-token form are both rejected. -/
theorem bad_port_is_parse_error_witness :
    (∃ e, ConnectionInfo.try_from "host:abc" = Except.error e) ∧
    (∃ e, ConnectionInfo.try_from "ws://host:4294967296" = Except.error e) :=
  ⟨(bad_port_is_parse_error "host:abc").1 "host".data "abc".data
      (by decide) (by decide),
   (bad_port_is_parse_error "ws://host:4294967296").2 "ws".data "//host".data
      "4294967296".data (by decide) (by decide)⟩

/-! ## C7 — the address-parsing splitting rule -/

theorem splitOnPair_ne_nil (a b : Char) (l : List Char) :
    splitOnPair a b l ≠ [] := by
  match l with
  | [] => simp [splitOnPair]
  | [x] => simp [splitOnPair]
  | x :: y :: rest =>
    rw [splitOnPair]
    by_cases h : x = a ∧ y = b
    · rw [if_pos h]
      exact List.cons_ne_nil _ _
    · rw [if_neg h]
      cases splitOnPair a b (y :: rest) with
      | nil => exact List.cons_ne_nil _ _
      | cons r rs => exact List.cons_ne_nil _ _

theorem getLast?_eq_some_getLastD {α : Type} (l : List α) (d : α) (h : l ≠ []) :
    l.getLast? = some (l.getLastD d) := by
  cases l with
  | nil => exact absurd rfl h
  | cons x xs =>
    rw [List.getLast?_eq_getLast_of_ne_nil (List.cons_ne_nil x xs)]
    rfl

/-- C7 counterexample: on `"http:a//b:80"` the second token is `"a//b"`,
which has no leading `"//"` to strip, so the claimed rule yields host
`"a//b"`; the code's `parts[1].split("//").last()` instead yields `"b"`
(it keeps only what follows the last occurrence of `"//"`). -/
theorem host_not_leading_stripped :
    ConnectionInfo.try_from "http:a//b:80" =
      Except.ok { host := "b", port := 80, secure := false } ∧
    specHostLeadingStripped "a//b".data = "a//b".data ∧
    ("b" : String) ≠ "a//b" := by
  refine ⟨by decide, by decide, by decide⟩

/-- C7 as amended: 2 tokens give host, parsed port, `secure = true`;
3 tokens give parsed port, `secure` exactly for the `https`/`wss` scheme,
and host equal to the piece of token 2 after the last occurrence of `"//"`
(the whole token when `"//"` does not occur — in particular the leading
`"//"` of a well-formed `scheme://host` input is stripped); any other
token count is an error.  Port-token parse failures are claim C10. -/
theorem address_parse_splitting_rule (s : String) :
    (∀ (h p : List Char) (n : Nat), splitOnChar ':' s.data = [h, p] →
      parseU32Chars p = some n →
      ConnectionInfo.try_from s =
        Except.ok { host := String.mk h, port := n, secure := true }) ∧
    (∀ (sch h p : List Char) (n : Nat), splitOnChar ':' s.data = [sch, h, p] →
      parseU32Chars p = some n →
      ConnectionInfo.try_from s =
        Except.ok { host := String.mk ((splitOnPair '/' '/' h).getLastD []),
                    port := n,
                    secure := sch = "https".data ∨ sch = "wss".data }) ∧
    ((splitOnChar ':' s.data).length ≠ 2 → (splitOnChar ':' s.data).length ≠ 3 →
      ConnectionInfo.try_from s = Except.error "Invalid uri") := by
  refine ⟨?_, ?_, ?_⟩
  · intro h p n hsplit hport
    simp only [ConnectionInfo.try_from, hsplit, hport]
  · intro sch h p n hsplit hport
    simp only [ConnectionInfo.try_from, hsplit, hport,
      getLast?_eq_some_getLastD (splitOnPair '/' '/' h) [] (splitOnPair_ne_nil '/' '/' h)]
  · intro h2 h3
    cases hps : splitOnChar ':' s.data with
    | nil => simp only [ConnectionInfo.try_from, hps]
    | cons a l1 =>
      cases l1 with
      | nil => simp only [ConnectionInfo.try_from, hps]
      | cons b l2 =>
        cases l2 with
        | nil =>
          rw [hps] at h2
          simp at h2
        | cons c l3 =>
          cases l3 with
          | nil =>
            rw [hps] at h3
            simp at h3
          | cons d l4 => simp only [ConnectionInfo.try_from, hps]

/-- C7 witness: the spec's three examples plus a wrong token count. -/
theorem address_parse_splitting_rule_witness :
    ConnectionInfo.try_from "host:1234" =
      Except.ok { host := "host", port := 1234, secure := true } ∧
    ConnectionInfo.try_from "ws://host:1234" =
      Except.ok { host := "host", port := 1234, secure := false } ∧
    ConnectionInfo.try_from "wss://host:1234" =
      Except.ok { host := "host", port := 1234, secure := true } ∧
    ConnectionInfo.try_from "a:b:c:80" = Except.error "Invalid uri" := by
  refine ⟨?_, ?_, ?_, ?_⟩
  · exact (address_parse_splitting_rule "host:1234").1
      "host".data "1234".data 1234 (by decide) (by decide)
  · have := (address_parse_splitting_rule "ws://host:1234").2.1
      "ws".data "//host".data "1234".data 1234 (by decide) (by decide)
    rw [this]
    decide
  · have := (address_parse_splitting_rule "wss://host:1234").2.1
      "wss".data "//host".data "1234".data 1234 (by decide) (by decide)
    rw [this]
    decide
  · exact (address_parse_splitting_rule "a:b:c:80").2.2 (by decide) (by decide)

/-! ## C5 — exactly one script output is required -/

/-- C5: on a decodable transaction, zero or two-or-more outputs addressed
to the script address make `add_transaction` fail with the invalid-
output-count error and leave the node (pending ledger included) unchanged
under the dispatcher; with exactly one match, processing never produces
that error. -/
theorem invalid_output_count_rejected (node : Node) (t : TxValid) (btx : BabbageTx)
    (hdec : t.multi_era_ok = true) (hbab : t.as_babbage = some btx) :
    ((btx.outputs.filter isScriptOutput).length ≠ 1 →
      Node.add_transaction node t = Except.error "Invalid number of script outputs" ∧
      applyMessage node (HydraEventMessage.txValid t) = node) ∧
    ((btx.outputs.filter isScriptOutput).length = 1 →
      Node.add_transaction node t ≠ Except.error "Invalid number of script outputs") := by
  constructor
  · intro hlen
    have hadd : Node.add_transaction node t =
        Except.error "Invalid number of script outputs" := by
      simp [Node.add_transaction, hdec, hbab, hlen]
    exact ⟨hadd, by simp [applyMessage, hadd]⟩
  · intro hlen
    obtain ⟨out, hout⟩ := List.length_eq_one.mp hlen
    intro hcontra
    simp only [Node.add_transaction, hdec, hbab, hout] at hcontra
    cases out with
    | legacy => simp at hcontra
    | postAlonzo addr dopt =>
      cases dopt with
      | none => simp at hcontra
      | some dop =>
        cases dop with
        | hash hh => simp at hcontra
        | data d =>
          cases d with
          | failedDecode => simp at hcontra
          | invalidGameState => simp at hcontra
          | ok gs =>
            cases hfp : findPlayerUpdate gs.admin t.cbor.length gs node.players with
            | none => simp [hfp] at hcontra
            | some pr => simp [hfp] at hcontra

/-- Node with no players, for the C5 witness. -/
def c5Node : Node :=
  { connection_info := { host := "n1", port := 4001, secure := true },
    head_id := none, socket := 0, players := [],
    stats := NodeStats.new true,
    tx_builder := { admin_key := [], script_ref := none } }

/-- Decodable transaction with zero script outputs, for the C5 witness. -/
def c5TxZero : TxValid :=
  { tx_id := [1], cbor := [], multi_era_ok := true,
    as_babbage := some { outputs := [] } }

/-- Decodable transaction with exactly one script output, for the C5
witness. -/
def c5TxOne : TxValid :=
  { tx_id := [2], cbor := [], multi_era_ok := true,
    as_babbage := some { outputs :=
      [TransactionOutput.postAlonzo (some SCRIPT_ADDRESS) none] } }

/-- C5 witness: zero matches are rejected with the invalid-output-count
error and the node is untouched; exactly one match never produces that
error. -/
theorem invalid_output_count_rejected_witness :
    (Node.add_transaction c5Node c5TxZero =
        Except.error "Invalid number of script outputs" ∧
      applyMessage c5Node (HydraEventMessage.txValid c5TxZero) = c5Node) ∧
    Node.add_transaction c5Node c5TxOne ≠
      Except.error "Invalid number of script outputs" :=
  ⟨(invalid_output_count_rejected c5Node c5TxZero { outputs := [] } rfl rfl).1
      (by decide),
   (invalid_output_count_rejected c5Node c5TxOne
      { outputs := [TransactionOutput.postAlonzo (some SCRIPT_ADDRESS) none] }
      rfl rfl).2 (by decide)⟩

/-! ## C6 — the matching output must carry an inline datum -/

/-- C6: on a decodable transaction whose single script-address output has
no datum at all, or a datum-hash reference instead of inline data,
`add_transaction` fails with the corresponding missing-datum error (the
spec's `MissingDatumError` covers both source messages) and the node,
pending ledger included, is unchanged under the dispatcher. -/
theorem missing_datum_rejected (node : Node) (t : TxValid) (btx : BabbageTx)
    (addr : Option String) (hsh : List Nat)
    (hdec : t.multi_era_ok = true) (hbab : t.as_babbage = some btx) :
    (btx.outputs.filter isScriptOutput = [TransactionOutput.postAlonzo addr none] →
      Node.add_transaction node t = Except.error "No datum found" ∧
      applyMessage node (HydraEventMessage.txValid t) = node) ∧
    (btx.outputs.filter isScriptOutput =
        [TransactionOutput.postAlonzo addr (some (DatumOption.hash hsh))] →
      Node.add_transaction node t = Except.error "No inline datum found" ∧
      applyMessage node (HydraEventMessage.txValid t) = node) := by
  constructor
  · intro hout
    have hadd : Node.add_transaction node t = Except.error "No datum found" := by
      simp [Node.add_transaction, hdec, hbab, hout]
    exact ⟨hadd, by simp [applyMessage, hadd]⟩
  · intro hout
    have hadd : Node.add_transaction node t = Except.error "No inline datum found" := by
      simp [Node.add_transaction, hdec, hbab, hout]
    exact ⟨hadd, by simp [applyMessage, hadd]⟩

/-- Transaction whose single script output has no datum, for the C6
witness. -/
def c6TxNoDatum : TxValid :=
  { tx_id := [3], cbor := [], multi_era_ok := true,
    as_babbage := some { outputs :=
      [TransactionOutput.legacy,
       TransactionOutput.postAlonzo (some SCRIPT_ADDRESS) none] } }

/-- Transaction whose single script output carries a datum-hash reference,
for the C6 witness. -/
def c6TxHashDatum : TxValid :=
  { tx_id := [4], cbor := [], multi_era_ok := true,
    as_babbage := some { outputs :=
      [TransactionOutput.postAlonzo (some SCRIPT_ADDRESS)
        (some (DatumOption.hash [7, 7]))] } }

/-- C6 witness: a datum-less match and a hash-reference match are both
rejected, leaving the node unchanged. -/
theorem missing_datum_rejected_witness :
    (Node.add_transaction c5Node c6TxNoDatum = Except.error "No datum found" ∧
      applyMessage c5Node (HydraEventMessage.txValid c6TxNoDatum) = c5Node) ∧
    (Node.add_transaction c5Node c6TxHashDatum =
        Except.error "No inline datum found" ∧
      applyMessage c5Node (HydraEventMessage.txValid c6TxHashDatum) = c5Node) :=
  ⟨(missing_datum_rejected c5Node c6TxNoDatum
      { outputs := [TransactionOutput.legacy,
          TransactionOutput.postAlonzo (some SCRIPT_ADDRESS) none] }
      (some SCRIPT_ADDRESS) [] rfl rfl).1 (by decide),
   (missing_datum_rejected c5Node c6TxHashDatum
      { outputs := [TransactionOutput.postAlonzo (some SCRIPT_ADDRESS)
          (some (DatumOption.hash [7, 7]))] }
      (some SCRIPT_ADDRESS) [7, 7] rfl rfl).2 (by decide)⟩

/-! ## C4 — `add_player` leaves no partial state on failure -/

/-- C4: if the UTxO snapshot fetch, the transaction construction, or the
message serialization fails, `add_player` returns an error and the node —
the roster in particular — is exactly the input (no partial state); on
success the player is appended to the roster (and the built message is
handed to the fire-and-forget `send`), before any on-chain
confirmation. -/
theorem add_player_no_partial_state (node : Node) (player : Player)
    (fetch_utxos : Except String (List UTxO))
    (build_new_game_state : Player → List UTxO → Except String (List Nat))
    (new_tx_message : List Nat → Except String String) :
    ((∃ e, fetch_utxos = Except.error e) →
      (Node.add_player node player fetch_utxos build_new_game_state new_tx_message).1 =
        node ∧
      ∃ e, (Node.add_player node player fetch_utxos build_new_game_state
          new_tx_message).2 = Except.error e) ∧
    (∀ utxos, fetch_utxos = Except.ok utxos →
      (∃ e, build_new_game_state player utxos = Except.error e) →
      (Node.add_player node player fetch_utxos build_new_game_state new_tx_message).1 =
        node ∧
      ∃ e, (Node.add_player node player fetch_utxos build_new_game_state
          new_tx_message).2 = Except.error e) ∧
    (∀ utxos new_game_tx, fetch_utxos = Except.ok utxos →
      build_new_game_state player utxos = Except.ok new_game_tx →
      (∃ e, new_tx_message new_game_tx = Except.error e) →
      (Node.add_player node player fetch_utxos build_new_game_state new_tx_message).1 =
        node ∧
      ∃ e, (Node.add_player node player fetch_utxos build_new_game_state
          new_tx_message).2 = Except.error e) ∧
    (∀ utxos new_game_tx message, fetch_utxos = Except.ok utxos →
      build_new_game_state player utxos = Except.ok new_game_tx →
      new_tx_message new_game_tx = Except.ok message →
      Node.add_player node player fetch_utxos build_new_game_state new_tx_message =
        ({ node with players := node.players ++ [player] }, Except.ok message)) := by
  refine ⟨?_, ?_, ?_, ?_⟩
  · rintro ⟨e, he⟩
    simp [Node.add_player, he]
  · rintro utxos hu ⟨e, he⟩
    simp [Node.add_player, hu, he]
  · rintro utxos new_game_tx hu hb ⟨e, he⟩
    simp [Node.add_player, hu, hb, he]
  · intro utxos new_game_tx message hu hb hm
    simp [Node.add_player, hu, hb, hm]

/-- Node and player for the C4 witness. -/
def c4Node : Node :=
  { connection_info := { host := "n1", port := 4001, secure := true },
    head_id := none, socket := 0,
    players := [{ pkh := [1], game_state := none }],
    stats := NodeStats.new false,
    tx_builder := { admin_key := [], script_ref := none } }

/-- The player the C4 witness adds. -/
def c4P : Player := { pkh := [2], game_state := none }

/-- Transaction-construction oracle for the C4 witness. -/
def c4Build : Player → List UTxO → Except String (List Nat) :=
  fun _ _ => Except.ok [9]

/-- Message-serialization oracle for the C4 witness. -/
def c4Msg : List Nat → Except String String :=
  fun _ => Except.ok "NewTx"

/-- C4 witness: with a failing snapshot fetch the roster is untouched and
an error is returned; with all three steps succeeding the player is
appended. -/
theorem add_player_no_partial_state_witness :
    ((Node.add_player c4Node c4P (Except.error "connection refused") c4Build c4Msg).1 =
        c4Node ∧
      ∃ e, (Node.add_player c4Node c4P (Except.error "connection refused")
          c4Build c4Msg).2 = Except.error e) ∧
    Node.add_player c4Node c4P (Except.ok []) c4Build c4Msg =
      ({ c4Node with players := c4Node.players ++ [c4P] }, Except.ok "NewTx") :=
  ⟨(add_player_no_partial_state c4Node c4P (Except.error "connection refused")
      c4Build c4Msg).1 ⟨"connection refused", rfl⟩,
   (add_player_no_partial_state c4Node c4P (Except.ok []) c4Build c4Msg).2.2.2
      [] [9] "NewTx" rfl rfl rfl⟩

/-! ## C2 — observable effects of a successful `add_transaction` -/

theorem findPlayerUpdate_inv (admin : List Nat) (bytes : Nat) (gs : GameState) :
    ∀ (ps : List Player) (su : StateUpdate) (ps2 : List Player),
      findPlayerUpdate admin bytes gs ps = some (su, ps2) →
      ps2.map Player.pkh = ps.map Player.pkh ∧
      ∃ pre p post, ps = pre ++ p :: post ∧
        ps2 = pre ++ { p with game_state := some gs } :: post := by
  intro ps
  induction ps with
  | nil => intro su ps2 h; cases h
  | cons p rest ih =>
    intro su ps2 h
    simp only [findPlayerUpdate] at h
    by_cases hp : p.pkh = admin
    · rw [if_pos hp] at h
      injection h with hpair
      have h2 : ps2 = { p with game_state := some gs } :: rest := by
        have := congrArg Prod.snd hpair
        simpa [Player.generate_state_update] using this.symm
      constructor
      · rw [h2]
        simp
      · exact ⟨[], p, rest, rfl, by rw [h2]; rfl⟩
    · rw [if_neg hp] at h
      cases hfp : findPlayerUpdate admin bytes gs rest with
      | none => rw [hfp] at h; cases h
      | some pr =>
        obtain ⟨su0, rest2⟩ := pr
        rw [hfp] at h
        injection h with hpair
        obtain ⟨hmap, pre, q, post, hps, hps2⟩ := ih su0 rest2 hfp
        have h2 : ps2 = p :: rest2 := by
          have := congrArg Prod.snd hpair
          simpa using this.symm
        constructor
        · rw [h2, List.map_cons, List.map_cons, hmap]
        · exact ⟨p :: pre, q, post, by rw [hps]; rfl, by rw [h2, hps2]; rfl⟩

/-- C2 as amended: a successful `add_transaction` changes exactly two
things — it inserts one `StateUpdate` into the pending ledger keyed by the
transaction id, and it advances the matched player's stored baseline game
state; the six cumulative counters, `persisted`, `head_id`, the connection
data, the socket handle, the transaction-building context, and the roster
membership (the sequence of player key hashes) are all unchanged. -/
theorem add_transaction_success_frame (node : Node) (t : TxValid) (node2 : Node)
    (hok : Node.add_transaction node t = Except.ok node2) :
    node2.connection_info = node.connection_info ∧
    node2.head_id = node.head_id ∧
    node2.socket = node.socket ∧
    node2.tx_builder = node.tx_builder ∧
    node2.stats.persisted = node.stats.persisted ∧
    node2.stats.transactions = node.stats.transactions ∧
    node2.stats.bytes = node.stats.bytes ∧
    node2.stats.kills = node.stats.kills ∧
    node2.stats.items = node.stats.items ∧
    node2.stats.secrets = node.stats.secrets ∧
    node2.stats.play_time = node.stats.play_time ∧
    node2.players.map Player.pkh = node.players.map Player.pkh ∧
    (∃ su, node2.stats.pending_transactions =
      mapInsert node.stats.pending_transactions t.tx_id su) ∧
    (∃ pre p post gs, node.players = pre ++ p :: post ∧
      node2.players = pre ++ { p with game_state := some gs } :: post) := by
  simp only [Node.add_transaction] at hok
  repeat' split at hok
  any_goals exact Except.noConfusion hok
  rename_i state_update players2 hfp
  injection hok with hnode
  subst hnode
  obtain ⟨hmap, pre, p, post, hps, hps2⟩ :=
    findPlayerUpdate_inv _ _ _ node.players state_update players2 hfp
  exact ⟨rfl, rfl, rfl, rfl, rfl, rfl, rfl, rfl, rfl, rfl, rfl, hmap,
    ⟨state_update, rfl⟩, pre, p, post, _, hps, hps2⟩

/-- Tracked player for the C2 concrete instance, baseline not yet set. -/
def c2Player : Player := { pkh := [1], game_state := none }

/-- Decoded game state carried by the C2 concrete transaction. -/
def c2GS : GameState :=
  { admin := [1], kills := 1, items := 0, secrets := 0, play_time := 7 }

/-- Node for the C2 concrete instance. -/
def c2Node : Node :=
  { connection_info := { host := "n1", port := 4001, secure := true },
    head_id := none, socket := 0, players := [c2Player],
    stats := NodeStats.new true,
    tx_builder := { admin_key := [], script_ref := none } }

/-- Valid transaction for the C2 concrete instance: one script output with
an inline datum decoding to `c2GS`. -/
def c2Tx : TxValid :=
  { tx_id := [5], cbor := [1, 2], multi_era_ok := true,
    as_babbage := some { outputs :=
      [TransactionOutput.postAlonzo (some SCRIPT_ADDRESS)
        (some (DatumOption.data (InlineDatum.ok c2GS)))] } }

/-- The node `add_transaction` actually produces on the C2 instance. -/
def c2Node2 : Node :=
  { c2Node with
    players := [{ pkh := [1], game_state := some c2GS }],
    stats := { c2Node.stats with
      pending_transactions :=
        [([5], { bytes := 2, kills := 1, items := 0, secrets := 0, play_time := 7 })] } }

/-- C2 counterexample: on a concrete node and transaction,
`add_transaction` succeeds, and besides the insertion into the pending
ledger the `players` field of the node also changed (the matched player's
stored baseline advanced from `none` to the decoded game state) — so the
pending insertion is not the only observable state change. -/
theorem add_transaction_also_mutates_player :
    Node.add_transaction c2Node c2Tx = Except.ok c2Node2 ∧
    c2Node2.players ≠ c2Node.players ∧
    c2Node2.stats.pending_transactions =
      mapInsert c2Node.stats.pending_transactions c2Tx.tx_id
        { bytes := 2, kills := 1, items := 0, secrets := 0, play_time := 7 } := by
  refine ⟨by decide, by decide, by decide⟩

/-- C2 witness: the amended frame theorem applied to the concrete
instance — head id untouched, roster membership (key-hash sequence)
untouched, and the pending ledger extended by exactly one keyed entry. -/
theorem add_transaction_success_frame_witness :
    c2Node2.head_id = c2Node.head_id ∧
    c2Node2.players.map Player.pkh = c2Node.players.map Player.pkh ∧
    (∃ su, c2Node2.stats.pending_transactions =
      mapInsert c2Node.stats.pending_transactions c2Tx.tx_id su) := by
  have h := add_transaction_success_frame c2Node c2Tx c2Node2 (by decide)
  exact ⟨h.2.1, h.2.2.2.2.2.2.2.2.2.2.2.1, h.2.2.2.2.2.2.2.2.2.2.2.2.1⟩
